import Mathlib

/-!
Verification development for the Graylog monitoring-system adapter
(`keep/providers/graylog_provider/graylog_provider.py`).

The adapter's pure logic is shallowly embedded: dictionaries become
structures with `Option` fields (a missing key is `none`), Python
exceptions become `Except PyErr`, and the stateful remote Graylog system
becomes an explicit `Remote` state threaded through `setup_webhook`.
-/

/-- Python exception outcomes that the embedded code can raise. -/
inductive PyErr where
  | keyError (key : String)
  | indexError
  | attributeError
  | valueError
  deriving DecidableEq, Repr

/-- Dictionary access `d["k"]`: raises `KeyError` when the key is absent. -/
def dictGet {α : Type} (v : Option α) (key : String) : Except PyErr α :=
  match v with
  | some a => Except.ok a
  | none => Except.error (PyErr.keyError key)

/-- Python list indexing `l[i]` for a possibly negative index `i`:
indices `0 ≤ i < len` address from the front, `-len ≤ i < 0` address from
the back, anything else is an `IndexError` (`none`). -/
def pyIndex {α : Type} (l : List α) (i : Int) : Option α :=
  if h : 0 ≤ i ∧ i < l.length then
    some (l.get ⟨i.toNat, by omega⟩)
  else if h2 : -(l.length : Int) ≤ i ∧ i < 0 then
    some (l.get ⟨(i + l.length).toNat, by omega⟩)
  else
    none

/-- Python truthiness of an optional string: `None` and `""` are falsy. -/
def pyTruthyStr (v : Option String) : Bool :=
  match v with
  | none => false
  | some s => s != ""

/-- Python `a or b` on optional strings: yields `a` when truthy, else `b`. -/
def pyOrStr (a b : Option String) : Option String :=
  if pyTruthyStr a then a else b

/-- Embedding of `ts.replace("z", "")`: replacing every occurrence of the
one-character pattern `"z"` by the empty string drops every `'z'`. -/
def replace_z (s : String) : String :=
  String.mk (s.data.filter (fun c => c != 'z'))

/-- Result of Python's `datetime.fromisoformat` as far as this adapter
needs it: the `YYYY-MM-DDTHH:MM:SS` core digits plus an optional
fractional-seconds part. -/
structure PyDateTime where
  core : List Char
  frac : List Char
  deriving DecidableEq, Repr

/-- Fractional-seconds tail accepted after the core timestamp: either
nothing, or a dot followed by at least one digit. -/
def fracOk (rest : List Char) : Bool :=
  match rest with
  | [] => true
  | '.' :: ds => ds.all Char.isDigit && !ds.isEmpty
  | _ => false

/-- Modelled Python primitive `datetime.fromisoformat`, simplified to the
`YYYY-MM-DDTHH:MM:SS(.ffffff)?` core shape produced by Graylog once the
adapter has stripped the `z` suffix; a non-matching string fails
(`ValueError`). -/
def pyFromIsoformat (s : String) : Option PyDateTime :=
  match s.data with
  | y1 :: y2 :: y3 :: y4 :: '-' :: m1 :: m2 :: '-' :: d1 :: d2 :: 'T' ::
    h1 :: h2 :: ':' :: n1 :: n2 :: ':' :: s1 :: s2 :: rest =>
      if ([y1, y2, y3, y4, m1, m2, d1, d2, h1, h2, n1, n2, s1, s2].all Char.isDigit)
          && fracOk rest then
        some { core := [y1, y2, y3, y4, '-', m1, m2, '-', d1, d2, 'T',
                        h1, h2, ':', n1, n2, ':', s1, s2],
               frac := rest }
      else none
  | _ => none

/-- Embedding of `.replace(tzinfo=timezone.utc).isoformat()`: the parsed
components re-rendered with the UTC offset appended. -/
def isoformatUTC (dt : PyDateTime) : String :=
  String.mk dt.core ++ String.mk dt.frac ++ "+00:00"

/-- Modelled from the spec: `AlertSeverity` (from `keep.api.models.alert`,
not under `src/`), the three severities this adapter uses. -/
inductive AlertSeverity where
  | low
  | warning
  | high
  deriving DecidableEq, Repr

/-- Modelled from the spec: `AlertStatus` (from `keep.api.models.alert`,
not under `src/`); only FIRING is used by this adapter. -/
inductive AlertStatus where
  | firing
  deriving DecidableEq, Repr

/-- Modelled from the spec: the canonical alert (`AlertDto`, not under
`src/`), with the fields this adapter populates. -/
structure AlertDto where
  id : String
  name : String
  severity : AlertSeverity
  description : Option String
  event_definition_id : String
  origin_context : Option String
  status : AlertStatus
  lastReceived : String
  message : Option String
  source : List String
  fingerprint : String
  deriving DecidableEq, Repr

/-- Value of a named alert field, as `getattr` would read it when the
fingerprint is computed over `FINGERPRINT_FIELDS`. -/
def alertFieldValue (a : AlertDto) (field : String) : Option String :=
  if field = "id" then some a.id
  else if field = "name" then some a.name
  else if field = "event_definition_id" then some a.event_definition_id
  else if field = "lastReceived" then some a.lastReceived
  else none

/-- Modelled from the spec: `BaseProvider.get_alert_fingerprint` is not
under `src/`; per the spec it is a stable hash/identity function over the
configured fingerprint field set, modelled here as the identity on the
joined field values. -/
def get_alert_fingerprint (a : AlertDto) (fields : List String) : String :=
  String.intercalate "," (fields.filterMap (alertFieldValue a))

/-- `GraylogProvider.FINGERPRINT_FIELDS` (line 133). -/
def FINGERPRINT_FIELDS : List String := ["id"]

/-- The inner `event` dictionary of a raw Graylog webhook payload; every
field is optional because dictionary keys may be absent. -/
structure RawInner where
  id : Option String
  message : Option String
  priority : Option Int
  timestamp : Option String
  event_definition_id : Option String
  origin_context : Option String
  deriving DecidableEq, Repr

/-- A raw Graylog event payload `{event: {...}, event_definition_title,
event_definition_description}`. -/
structure RawEvent where
  event : Option RawInner
  event_definition_title : Option String
  event_definition_description : Option String
  deriving DecidableEq, Repr

/-- The severity list literal `[AlertSeverity.LOW, AlertSeverity.WARNING,
AlertSeverity.HIGH]` from line 669. -/
def severityList : List AlertSeverity :=
  [AlertSeverity.low, AlertSeverity.warning, AlertSeverity.high]

/-- Embedding of `GraylogProvider.__map_event_to_alert` (lines 664-689).
Field accesses are performed in the Python argument-evaluation order; the
`.get("event_definition_title", event["event"]["message"])` default is
evaluated eagerly, so a missing `message` key raises even when the title
is present. -/
def map_event_to_alert (e : RawEvent) : Except PyErr AlertDto := do
  let inner ← dictGet e.event "event"
  let id ← dictGet inner.id "id"
  let msg ← dictGet inner.message "message"
  let name := e.event_definition_title.getD msg
  let p ← dictGet inner.priority "priority"
  let severity ←
    match pyIndex severityList (p - 1) with
    | some s => Except.ok s
    | none => Except.error PyErr.indexError
  let edid ← dictGet inner.event_definition_id "event_definition_id"
  let ts ← dictGet inner.timestamp "timestamp"
  let dt ←
    match pyFromIsoformat (replace_z ts) with
    | some d => Except.ok d
    | none => Except.error PyErr.valueError
  let alert : AlertDto :=
    { id := id
      name := name
      severity := severity
      description := e.event_definition_description
      event_definition_id := edid
      origin_context := inner.origin_context
      status := AlertStatus.firing
      lastReceived := isoformatUTC dt
      message := inner.message
      source := ["graylog"]
      fingerprint := "" }
  Except.ok { alert with
    fingerprint := get_alert_fingerprint alert FINGERPRINT_FIELDS }

/-- The remote id `event["event"]["id"]` of a raw event, when present. -/
def rawEventId (e : RawEvent) : Option String :=
  e.event.bind (fun inner => inner.id)

/-- Outcome of the GET issued by the version probe: either the request
itself raises, or a response with a status code and an optional `version`
field in the JSON body. -/
inductive VersionProbe where
  | exn
  | resp (status : Nat) (version : Option String)
  deriving DecidableEq, Repr

/-- Embedding of `GraylogProvider.__get_graylog_version` (lines 341-357):
a non-200 status, a missing `version` key, or a raised exception are all
caught, logged, and the function falls through returning `None`; it never
raises. -/
def get_graylog_version (p : VersionProbe) : Option String :=
  match p with
  | VersionProbe.exn => none
  | VersionProbe.resp status version =>
      if status = 200 then
        match version with
        | some v => some v.trim
        | none => none
      else none

/-- Embedding of `self.is_v4 = self.__get_graylog_version().startswith("4")`
(line 140): when the probe returned `None`, `.startswith` on `None` raises
`AttributeError`. -/
def init_is_v4 (p : VersionProbe) : Except PyErr Bool :=
  match get_graylog_version p with
  | none => Except.error PyErr.attributeError
  | some v => Except.ok (v.startsWith "4")

/-- Outcome of the HTTPS reachability probe `requests.get("https://...")`. -/
inductive HostProbe where
  | ok
  | sslError
  | otherError
  deriving DecidableEq, Repr

/-- Result of one access to the `graylog_host` property: the returned
host, the new `_host` field, and whether a probe request was issued. -/
structure HostAccess where
  result : String
  host : Option String
  probed : Bool
  deriving DecidableEq, Repr

/-- Embedding of the `graylog_host` property (lines 237-272). `cached` is
the `_host` field (`None` before first resolution); `probe` is what the
HTTPS reachability request would do if issued now. -/
def graylog_host (deploymentUrl : String) (cached : Option String)
    (probe : HostProbe) : HostAccess :=
  if pyTruthyStr cached then
    { result := cached.getD "", host := cached, probed := false }
  else if deploymentUrl.startsWith "http://" || deploymentUrl.startsWith "https://" then
    { result := deploymentUrl, host := some deploymentUrl, probed := false }
  else
    match probe with
    | HostProbe.ok =>
        let h := "https://" ++ deploymentUrl
        { result := h, host := some h, probed := true }
    | HostProbe.sslError =>
        let h := "http://" ++ deploymentUrl
        { result := h, host := some h, probed := true }
    | HostProbe.otherError =>
        let h := deploymentUrl.dropRightWhile (fun c => c = '/')
        { result := h, host := some h, probed := true }

/-- The two code paths the generic `_query` entry point can take. -/
inductive QueryPath where
  | searchCall
  | alertsCall
  deriving DecidableEq, Repr

/-- Embedding of the dispatch test of `GraylogProvider._query`
(lines 810-829): `query = kwargs.get("query") or
events_search_parameters.get("query")` followed by `if query:`. -/
def query_dispatch (kwargsQuery paramsQuery : Option String) : QueryPath :=
  if pyTruthyStr (pyOrStr kwargsQuery paramsQuery) then QueryPath.searchCall
  else QueryPath.alertsCall

/-- Index of the first occurrence of `sep` in `s` (leftmost position at
which `sep` is a prefix of the remaining suffix), as Python's `str.find`
locates it. -/
def firstOccAux (sep : List Char) : List Char → Option Nat
  | [] => none
  | c :: rest =>
      if sep.isPrefixOf (c :: rest) then some 0
      else (firstOccAux sep rest).map (fun n => n + 1)

/-- Whether `sep` occurs as a contiguous run inside `s`. -/
def containsSub (sep s : List Char) : Bool :=
  (firstOccAux sep s).isSome

/-- Python `s.split(sep)` for a non-empty separator `c :: cs`: scan left
to right, cutting at each non-overlapping occurrence. The `fuel` argument
is only a structural-termination device; every cut strictly shortens the
remaining suffix, so any fuel at least the length of the input gives the
scan's true result (`pySplitGo_congr` below). -/
def pySplitGo (c : Char) (cs : List Char) : Nat → List Char → List (List Char)
  | 0, s => [s]
  | fuel + 1, s =>
      match firstOccAux (c :: cs) s with
      | none => [s]
      | some i => s.take i :: pySplitGo c cs fuel (s.drop (i + (cs.length + 1)))

/-- Python `s.split(sep)` for a non-empty separator. -/
def pySplitNE (c : Char) (cs : List Char) (s : List Char) : List (List Char) :=
  pySplitGo c cs s.length s

/-- Python `s.split(sep)`; the empty-separator case raises in Python and
is never exercised by this adapter (the separator is the literal
`"provider_id="`). -/
def pySplit (sep s : List Char) : List (List Char) :=
  match sep with
  | [] => [s]
  | c :: cs => pySplitNE c cs s

/-- Embedding of `urlparse(keep_api_url).query`: the fragment (everything
from the first `'#'`) is removed first, then the query is everything after
the first `'?'` of the remainder (empty when there is no `'?'`). -/
def urlParseQuery (url : String) : String :=
  String.mk (((url.data.takeWhile (fun ch => ch ≠ '#')).dropWhile
      (fun ch => ch ≠ '?')).tail)

/-- The separator literal `"provider_id="` used on line 557. -/
def providerIdKey : List Char := "provider_id=".data

/-- Embedding of the notification-title derivation of `setup_webhook`
(lines 554-558): `provider_id = urlparse(url).query.split("provider_id=")[-1]`
and `notification_name = f"Keep-{provider_id}"`. -/
def derive_notification_name (keep_api_url : String) : String :=
  "Keep-" ++ String.mk ((pySplit providerIdKey (urlParseQuery keep_api_url).data).getLastD [])

/-- A remote event definition `{id, _scope, notifications: [{notification_id}], ...}`;
the notification list is modelled as the list of referenced notification
ids. -/
structure EventDef where
  id : String
  scope : String
  notifications : List Nat
  deriving DecidableEq, Repr

/-- Version-specific notification config body (lines 611-627): v4 uses the
bare `http-notification-v1` shape, v5+ the fuller `http-notification-v2`
shape (constant literal fields `basic_auth`/`api_key`/`api_secret`/
`time_zone`/`body_template` omitted as inert). -/
inductive NotificationConfig where
  | httpV1 (url : String)
  | httpV2 (url : String) (headers : String) (skip_tls_verification : Bool)
      (method : String) (content_type : String)
  deriving DecidableEq, Repr

/-- A remote notification `{id, title, description, config}`; server-assigned
ids are modelled as naturals drawn from the remote id counter. -/
structure Notification where
  id : Nat
  title : String
  description : String
  config : NotificationConfig
  deriving DecidableEq, Repr

/-- A URL-whitelist entry `{id, title, value, type}`; `wtype` embeds the
JSON `type` field. -/
structure WhitelistEntry where
  id : String
  title : String
  value : String
  wtype : String
  deriving DecidableEq, Repr

/-- The remote Graylog state the provisioning code manipulates; `nextId`
is the server's fresh-id source for created notifications. -/
structure Remote where
  eventDefs : List EventDef
  whitelist : List WhitelistEntry
  notifications : List Notification
  nextId : Nat
  deriving Repr

/-- Server-side pagination of `GET /events/definitions?page&per_page`
(1-based pages): page `p` holds entries `(p-1)*perPage .. p*perPage-1`. -/
def eventsPage (defs : List EventDef) (page perPage : Nat) : List EventDef :=
  (defs.drop ((page - 1) * perPage)).take perPage

/-- Embedding of the event-definition enumeration of `setup_webhook`
(lines 564-573): fetch page 1 with `per_page=100`, compute
`total_pages = math.ceil(total / 100)` from the reported total, then
`for page in range(2, total_pages)` extend with the further pages (note:
Python `range(2, total_pages)` stops at `total_pages - 1`). -/
def collect_event_definitions (r : Remote) : List EventDef :=
  let firstPage := eventsPage r.eventDefs 1 100
  let totalPages := (r.eventDefs.length + 99) / 100
  (List.range' 2 (totalPages - 2)).foldl
    (fun acc page => acc ++ eventsPage r.eventDefs page 100) firstPage

/-- Embedding of the whitelist upsert of `setup_webhook` (lines 575-593):
scan the fetched entries for one whose `value` equals the callback URL; if
found, do nothing; otherwise append a fresh literal entry and persist the
whole list. The returned flag records whether the PUT write call was
issued; the client-side `uuid.uuid4()` entry id is modelled by an opaque
placeholder since nothing reads it. -/
def whitelist_upsert (entries : List WhitelistEntry)
    (keep_api_url notification_name : String) : List WhitelistEntry × Bool :=
  if entries.any (fun e => e.value == keep_api_url) then (entries, false)
  else
    (entries ++ [{ id := "uuid4", title := notification_name,
                   value := keep_api_url, wtype := "literal" }], true)

/-- Server response to `GET /events/notifications?query=title:<name>` with
`page=1, per_page=1`: the count of matching notifications and the first
match only. -/
def notificationQuery (r : Remote) (name : String) : Nat × List Notification :=
  let hits := r.notifications.filter (fun n => n.title == name)
  (hits.length, hits.take 1)

/-- Removal of the first stale notification reference in an event
definition's notification list (lines 647-650): the loop pops the first
entry whose `notification_id` equals the remembered id and breaks; when no
notification was deleted (`existing_notification_id is None`) nothing
matches. -/
def popFirstRef (l : List Nat) (stale : Option Nat) : List Nat :=
  match stale with
  | none => l
  | some s => l.erase s

/-- The whitelist phase of `setup_webhook` (lines 575-593) as a state
transition: only the remote whitelist changes. -/
def whitelistStep (r : Remote) (keep_api_url notification_name : String) : Remote :=
  { r with whitelist := (whitelist_upsert r.whitelist keep_api_url notification_name).1 }

/-- The lookup-and-delete phase of `setup_webhook` (lines 596-608): query
notifications by title with `page=1, per_page=1`; when the reported count
is positive, remember the first result's id as the stale id and delete
that notification. -/
def deleteExistingStep (r : Remote) (notification_name : String) : Option Nat × Remote :=
  let lookup := notificationQuery r notification_name
  if lookup.1 > 0 then
    match lookup.2 with
    | n :: _ =>
        (some n.id,
         { r with notifications := r.notifications.filter (fun x => x.id ≠ n.id) })
    | [] => (none, r)
  else (none, r)

/-- The fixed description text of the created notification (line 630). -/
def keepDescription : String :=
  "Hello, this Notification is created by Keep, please do not change the title."

/-- The create phase of `setup_webhook` (lines 610-635): POST the new
notification body; the server assigns the next fresh id and returns it. -/
def createNotificationStep (r : Remote) (notification_name : String)
    (config : NotificationConfig) : Nat × Remote :=
  let newN : Notification :=
    { id := r.nextId, title := notification_name,
      description := keepDescription,
      config := config }
  (newN.id,
   { r with notifications := r.notifications ++ [newN], nextId := r.nextId + 1 })

/-- One iteration of the rebinding loop of `setup_webhook` (lines
637-655): skip system-scoped definitions on non-v4 backends; otherwise pop
the first stale reference, append the new notification id, and persist the
updated definition under its (unchanged) id. -/
def rebindStep (is_v4 : Bool) (existing : Option Nat) (newId : Nat)
    (acc : Remote) (d : EventDef) : Remote :=
  if !is_v4 && d.scope == "SYSTEM_NOTIFICATION_EVENT" then acc
  else
    let d2 : EventDef := { d with notifications := popFirstRef d.notifications existing ++ [newId] }
    { acc with eventDefs := acc.eventDefs.map (fun x => if x.id == d2.id then d2 else x) }

/-- Embedding of `GraylogProvider.setup_webhook` (lines 549-662) as a
transition on the remote state, on the success path (any non-success HTTP
status raises and aborts; claims here concern the completed run):
derive the notification title from the callback URL, append the api key on
v4, enumerate event definitions, idempotently whitelist the URL, delete
any existing same-titled notification (first query result), create the
new notification with a version-specific config, and rebind every
collected (non-skipped) definition, removing the stale reference and
appending the new id, persisting each definition by id. -/
def setup_webhook (is_v4 : Bool) (keep_api_url api_key : String) (r : Remote) : Remote :=
  let notification_name := derive_notification_name keep_api_url
  let url := if is_v4 then keep_api_url ++ "&api_key=" ++ api_key else keep_api_url
  let collected := collect_event_definitions r
  let r1 := whitelistStep r url notification_name
  let er := deleteExistingStep r1 notification_name
  let config :=
    if is_v4 then NotificationConfig.httpV1 url
    else NotificationConfig.httpV2 url ("X-API-KEY:" ++ api_key) true "POST" "JSON"
  let nr := createNotificationStep er.2 notification_name config
  collected.foldl (rebindStep is_v4 er.1 nr.1) nr.2

/-- The remote side of the alert-search endpoint `POST /events/search`:
the reported `total_events` and the `events` payload of each 1-based
page. -/
structure AlertsRemote where
  totalEvents : Nat
  pages : Nat → List RawEvent

/-- The page-count bound of `_get_alerts` (line 797):
`max(10, math.ceil(total_events / 1000))`. -/
def get_alerts_page_count (r : AlertsRemote) : Nat :=
  max 10 ((r.totalEvents + 999) / 1000)

/-- The pages `_get_alerts` requests: page 1 first, then
`range(2, total_events + 1)` (lines 795-803). -/
def get_alerts_pages_fetched (r : AlertsRemote) : List Nat :=
  1 :: List.range' 2 (get_alerts_page_count r - 1)

/-- The raw events `_get_alerts` accumulates across its page fetches
(`all_alerts.extend(...)` per page). -/
def get_alerts_raw (r : AlertsRemote) : List RawEvent :=
  (List.range' 2 (get_alerts_page_count r - 1)).foldl
    (fun acc p => acc ++ r.pages p) (r.pages 1)

/-- The final list comprehension mapping every accumulated raw event
through `__map_event_to_alert` (lines 806-808); the first mapping failure
propagates. -/
def mapAllEvents : List RawEvent → Except PyErr (List AlertDto)
  | [] => Except.ok []
  | e :: rest => do
      let a ← map_event_to_alert e
      let l ← mapAllEvents rest
      Except.ok (a :: l)

/-- Embedding of `GraylogProvider._get_alerts` (lines 780-808). -/
def get_alerts (r : AlertsRemote) : Except PyErr (List AlertDto) :=
  mapAllEvents (get_alerts_raw r)

@[simp]
theorem pyOk_bind {α β : Type} (a : α) (f : α → Except PyErr β) :
    (Except.ok a : Except PyErr α) >>= f = f a := rfl

@[simp]
theorem pyError_bind {α β : Type} (e : PyErr) (f : α → Except PyErr β) :
    (Except.error e : Except PyErr α) >>= f = Except.error e := rfl

/-- The version probe failed: the request raised, the status was not 200,
or the body had no `version` field. -/
def probeFailed : VersionProbe → Bool
  | VersionProbe.exn => true
  | VersionProbe.resp status version => status != 200 || version.isNone

/-- Claim C5: if the version probe fails (non-200 status or a raised
exception), `__get_graylog_version` logs and returns no value rather than
raising, and the `is_v4` flag is then evaluated against that absent value
(in Python, `None.startswith` raises `AttributeError` at construction). -/
theorem claim_C5_version_probe_failure (p : VersionProbe)
    (h : probeFailed p = true) :
    get_graylog_version p = none ∧
      init_is_v4 p = Except.error PyErr.attributeError := by
  have hv : get_graylog_version p = none := by
    cases p with
    | exn => rfl
    | resp status version =>
        simp only [probeFailed, Bool.or_eq_true, bne_iff_ne, ne_eq,
          Option.isNone_iff_eq_none] at h
        cases h with
        | inl hs => simp [get_graylog_version, hs]
        | inr hv =>
            subst hv
            simp [get_graylog_version]
  refine ⟨hv, ?_⟩
  simp [init_is_v4, hv]

/-- Witness for C5 at the raised-exception probe outcome. -/
theorem claim_C5_witness :
    get_graylog_version VersionProbe.exn = none ∧
      init_is_v4 VersionProbe.exn = Except.error PyErr.attributeError :=
  claim_C5_version_probe_failure VersionProbe.exn (by decide)

/-- Claim C7: once `_host` holds a non-null (and hence truthy) value,
every further access to the `graylog_host` property returns the memoized
value and issues no probe request, whatever a fresh probe would now
return. -/
theorem claim_C7_host_memoized (deploymentUrl h : String) (hne : h ≠ "")
    (probe : HostProbe) :
    graylog_host deploymentUrl (some h) probe =
      { result := h, host := some h, probed := false } := by
  unfold graylog_host
  rw [if_pos]
  · rfl
  · simp [pyTruthyStr, hne]

/-- Witness for C7: a cached HTTPS host is returned unchanged even when a
fresh probe would hit an SSL error and pick HTTP. -/
theorem claim_C7_witness :
    graylog_host "graylog.example" (some "https://graylog.example") HostProbe.sslError =
      { result := "https://graylog.example", host := some "https://graylog.example",
        probed := false } :=
  claim_C7_host_memoized "graylog.example" "https://graylog.example" (by decide)
    HostProbe.sslError

/-- Claim C9: the `_query` dispatch test is a truthiness check, so a
parameter mapping whose `query` value is the empty string (with no
non-empty `query` keyword argument) dispatches to the structured
alert-search path, exactly as if the query were absent. -/
theorem claim_C9_empty_query_dispatch (kwargsQuery paramsQuery : Option String)
    (hp : paramsQuery = some "") (hk : kwargsQuery = none ∨ kwargsQuery = some "") :
    query_dispatch kwargsQuery paramsQuery = QueryPath.alertsCall := by
  cases hk with
  | inl h => subst h; subst hp; rfl
  | inr h => subst h; subst hp; rfl

/-- Witness for C9 with no `query` keyword argument at all. -/
theorem claim_C9_witness :
    query_dispatch none (some "") = QueryPath.alertsCall :=
  claim_C9_empty_query_dispatch none (some "") rfl (Or.inl rfl)

/-- Claim C8: the whitelist upsert is a no-op (same entries, no write
call issued) when some existing entry's value equals the callback URL;
otherwise exactly one new literal entry is appended and the whole list is
persisted. -/
theorem claim_C8_whitelist_upsert (entries : List WhitelistEntry)
    (url name : String) :
    ((∃ e ∈ entries, e.value = url) →
        whitelist_upsert entries url name = (entries, false)) ∧
    ((¬ ∃ e ∈ entries, e.value = url) →
        whitelist_upsert entries url name =
          (entries ++ [{ id := "uuid4", title := name, value := url,
                         wtype := "literal" }], true)) := by
  constructor
  · intro h
    unfold whitelist_upsert
    rw [if_pos]
    simp only [List.any_eq_true, beq_iff_eq]
    exact h
  · intro h
    unfold whitelist_upsert
    rw [if_neg]
    simp only [List.any_eq_true, beq_iff_eq]
    exact h

/-- Witness for C8: with the URL already present the upsert returns the
entries unchanged and issues no write; with it absent one literal entry is
appended and the list is written. -/
theorem claim_C8_witness :
    whitelist_upsert
        [{ id := "w1", title := "t", value := "http://keep/cb", wtype := "literal" }]
        "http://keep/cb" "Keep-p" =
      ([{ id := "w1", title := "t", value := "http://keep/cb", wtype := "literal" }], false) ∧
    whitelist_upsert [] "http://keep/cb" "Keep-p" =
      ([{ id := "uuid4", title := "Keep-p", value := "http://keep/cb",
          wtype := "literal" }], true) := by
  constructor
  · exact (claim_C8_whitelist_upsert _ _ _).1
      ⟨_, List.mem_singleton.mpr rfl, rfl⟩
  · exact (claim_C8_whitelist_upsert _ _ _).2
      (by rintro ⟨e, he, _⟩; exact (List.not_mem_nil e) he)

/-- Joining a single field value is that value. -/
theorem intercalate_single (sep x : String) : String.intercalate sep [x] = x := by
  simp [String.intercalate, String.intercalate.go]

/-- With `FINGERPRINT_FIELDS = ["id"]`, the fingerprint of an alert is
exactly its `id` field. -/
theorem fingerprint_eq_id (alert : AlertDto) :
    get_alert_fingerprint alert FINGERPRINT_FIELDS = alert.id := by
  simp only [get_alert_fingerprint, FINGERPRINT_FIELDS, List.filterMap,
    alertFieldValue, if_pos rfl]
  exact intercalate_single "," alert.id

/-- What a successful run of `__map_event_to_alert` pins down: the inner
event dictionary exists, the produced alert's `id` is the remote event
id, the fingerprint equals that id, and the severity is the Python-indexed
entry for the event's priority. -/
theorem map_event_ok_spec (e : RawEvent) (a : AlertDto)
    (h : map_event_to_alert e = Except.ok a) :
    ∃ inner, e.event = some inner ∧ inner.id = some a.id ∧
      a.fingerprint = a.id ∧
      ∃ p, inner.priority = some p ∧
        pyIndex severityList (p - 1) = some a.severity := by
  unfold map_event_to_alert at h
  cases he : e.event with
  | none => rw [he] at h; simp [dictGet] at h
  | some inner =>
  rw [he] at h
  simp only [dictGet, pyOk_bind] at h
  cases hi : inner.id with
  | none => rw [hi] at h; simp at h
  | some i =>
  rw [hi] at h
  simp only [pyOk_bind] at h
  cases hm : inner.message with
  | none => rw [hm] at h; simp at h
  | some m =>
  rw [hm] at h
  simp only [pyOk_bind] at h
  cases hp : inner.priority with
  | none => rw [hp] at h; simp at h
  | some p =>
  rw [hp] at h
  simp only [pyOk_bind] at h
  cases hs : pyIndex severityList (p - 1) with
  | none => rw [hs] at h; simp at h
  | some sev =>
  rw [hs] at h
  simp only [pyOk_bind] at h
  cases hd : inner.event_definition_id with
  | none => rw [hd] at h; simp at h
  | some edid =>
  rw [hd] at h
  simp only [pyOk_bind] at h
  cases ht : inner.timestamp with
  | none => rw [ht] at h; simp at h
  | some ts =>
  rw [ht] at h
  simp only [pyOk_bind] at h
  cases hdt : pyFromIsoformat (replace_z ts) with
  | none => rw [hdt] at h; simp at h
  | some dt =>
  rw [hdt] at h
  simp only [pyOk_bind, Except.ok.injEq] at h
  subst h
  refine ⟨inner, rfl, hi, ?_, p, hp, hs⟩
  simp only []
  exact fingerprint_eq_id _

/-- Claim C2: for raw events that map successfully, the fingerprints of
the mapped alerts agree exactly when the events' remote ids
(`event["event"]["id"]`) agree — the fingerprint is a function of the id
field alone, whatever the other fields are. -/
theorem claim_C2_fingerprint_iff_id (e1 e2 : RawEvent) (a1 a2 : AlertDto)
    (h1 : map_event_to_alert e1 = Except.ok a1)
    (h2 : map_event_to_alert e2 = Except.ok a2) :
    a1.fingerprint = a2.fingerprint ↔ rawEventId e1 = rawEventId e2 := by
  obtain ⟨inner1, he1, hid1, hfp1, -⟩ := map_event_ok_spec e1 a1 h1
  obtain ⟨inner2, he2, hid2, hfp2, -⟩ := map_event_ok_spec e2 a2 h2
  have hr1 : rawEventId e1 = some a1.id := by simp [rawEventId, he1, hid1]
  have hr2 : rawEventId e2 = some a2.id := by simp [rawEventId, he2, hid2]
  rw [hfp1, hfp2, hr1, hr2, Option.some_inj]

/-- Decidable equality of embedded Python results, for concrete witness
evaluation. -/
instance exceptDecEq {α β : Type} [DecidableEq α] [DecidableEq β] :
    DecidableEq (Except α β) := fun x y =>
  match x, y with
  | Except.ok a, Except.ok b =>
      if h : a = b then Decidable.isTrue (congrArg Except.ok h)
      else Decidable.isFalse (fun hc => h (Except.ok.inj hc))
  | Except.ok _, Except.error _ => Decidable.isFalse (fun hc => Except.noConfusion hc)
  | Except.error _, Except.ok _ => Decidable.isFalse (fun hc => Except.noConfusion hc)
  | Except.error e1, Except.error e2 =>
      if h : e1 = e2 then Decidable.isTrue (congrArg Except.error h)
      else Decidable.isFalse (fun hc => h (Except.error.inj hc))

/-- Inner dictionary of the first C2 witness event. -/
def c2Inner1 : RawInner :=
  { id := some "evt-1", message := some "disk full", priority := some 1,
    timestamp := some "2024-01-01T00:00:00",
    event_definition_id := some "def-A", origin_context := none }

/-- First concrete event for the C2 witness. -/
def c2Event1 : RawEvent :=
  { event := some c2Inner1, event_definition_title := some "title one",
    event_definition_description := none }

/-- Inner dictionary of the second C2 witness event: same remote id as
`c2Inner1`, every other field different. -/
def c2Inner2 : RawInner :=
  { id := some "evt-1", message := some "cpu hot", priority := some 3,
    timestamp := some "2025-06-30T12:34:56",
    event_definition_id := some "def-B", origin_context := some "ctx" }

/-- Second concrete event for the C2 witness. -/
def c2Event2 : RawEvent :=
  { event := some c2Inner2, event_definition_title := none,
    event_definition_description := some "other" }

/-- The alert `c2Event1` maps to. -/
def c2Alert1 : AlertDto :=
  { id := "evt-1", name := "title one", severity := AlertSeverity.low,
    description := none, event_definition_id := "def-A",
    origin_context := none, status := AlertStatus.firing,
    lastReceived := "2024-01-01T00:00:00+00:00", message := some "disk full",
    source := ["graylog"], fingerprint := "evt-1" }

/-- The alert `c2Event2` maps to. -/
def c2Alert2 : AlertDto :=
  { id := "evt-1", name := "cpu hot", severity := AlertSeverity.high,
    description := some "other", event_definition_id := "def-B",
    origin_context := some "ctx", status := AlertStatus.firing,
    lastReceived := "2025-06-30T12:34:56+00:00", message := some "cpu hot",
    source := ["graylog"], fingerprint := "evt-1" }

/-- Witness for C2: two events sharing a remote id but differing in all
other fields fingerprint identically. -/
theorem claim_C2_witness : c2Alert1.fingerprint = c2Alert2.fingerprint :=
  (claim_C2_fingerprint_iff_id c2Event1 c2Event2 c2Alert1 c2Alert2
    (by decide) (by decide)).mpr (by decide)

/-- Priorities at or above 4, or at or below -3, make the severity-list
index fall outside Python's valid (positive or negative) index range. -/
theorem pyIndex_severity_out_of_range (p : Int) (hp : 4 ≤ p ∨ p ≤ -3) :
    pyIndex severityList (p - 1) = none := by
  unfold pyIndex
  simp only [severityList, List.length_cons, List.length_nil]
  split_ifs with h1 h2
  · exfalso; omega
  · exfalso; omega
  · rfl

/-- Inner dictionary of the C4 counterexample event: priority 0, every
other field well formed. -/
def c4Inner0 : RawInner :=
  { id := some "evt-2", message := some "boom", priority := some 0,
    timestamp := some "2024-01-01T00:00:00",
    event_definition_id := some "def-A", origin_context := none }

/-- The C4 counterexample event with priority 0. -/
def c4Event0 : RawEvent :=
  { event := some c4Inner0, event_definition_title := none,
    event_definition_description := none }

/-- Counterexample to claim C4 as stated: a priority of 0 does not fail
with an out-of-range error; Python's negative indexing wraps `0 - 1 = -1`
to the last list entry, so the mapping succeeds with severity HIGH. -/
theorem claim_C4_counterexample :
    (map_event_to_alert c4Event0).toOption.map AlertDto.severity =
      some AlertSeverity.high := by decide

/-- Claim C4 (amended): priorities 1, 2, 3 map to LOW, WARNING, HIGH and any
priority at or above 4 (or at or below -3) fails with an out-of-range
error, but priorities 0, -1 and -2 do not fail: Python negative indexing wraps
them to HIGH/WARNING/LOW respectively. -/
theorem claim_C4_severity_mapping (e : RawEvent) (inner : RawInner) (p : Int)
    (he : e.event = some inner) (hp : inner.priority = some p)
    (hid : inner.id.isSome = true) (hmsg : inner.message.isSome = true) :
    (∀ a, map_event_to_alert e = Except.ok a →
        pyIndex severityList (p - 1) = some a.severity) ∧
    (p = 1 → pyIndex severityList (p - 1) = some AlertSeverity.low) ∧
    (p = 2 → pyIndex severityList (p - 1) = some AlertSeverity.warning) ∧
    (p = 3 → pyIndex severityList (p - 1) = some AlertSeverity.high) ∧
    (p = 0 → pyIndex severityList (p - 1) = some AlertSeverity.high) ∧
    (p = -1 → pyIndex severityList (p - 1) = some AlertSeverity.warning) ∧
    (p = -2 → pyIndex severityList (p - 1) = some AlertSeverity.low) ∧
    ((4 ≤ p ∨ p ≤ -3) → map_event_to_alert e = Except.error PyErr.indexError) := by
  refine ⟨?_, ?_, ?_, ?_, ?_, ?_, ?_, ?_⟩
  · intro a ha
    obtain ⟨inner2, he2, -, -, p2, hp2, hs2⟩ := map_event_ok_spec e a ha
    rw [he] at he2
    obtain rfl := Option.some_inj.mp he2
    rw [hp] at hp2
    obtain rfl := Option.some_inj.mp hp2
    exact hs2
  · intro h; subst h; decide
  · intro h; subst h; decide
  · intro h; subst h; decide
  · intro h; subst h; decide
  · intro h; subst h; decide
  · intro h; subst h; decide
  · intro hr
    obtain ⟨i, hi⟩ := Option.isSome_iff_exists.mp hid
    obtain ⟨m, hm⟩ := Option.isSome_iff_exists.mp hmsg
    unfold map_event_to_alert
    rw [he]
    simp only [dictGet, pyOk_bind]
    rw [hi]
    simp only [pyOk_bind]
    rw [hm]
    simp only [pyOk_bind]
    rw [hp]
    simp only [pyOk_bind]
    rw [pyIndex_severity_out_of_range p hr]
    rfl

/-- Inner dictionary of the C4 witness event: priority 4. -/
def c4Inner4 : RawInner :=
  { id := some "evt-3", message := some "boom", priority := some 4,
    timestamp := some "2024-01-01T00:00:00",
    event_definition_id := some "def-A", origin_context := none }

/-- The C4 witness event with priority 4. -/
def c4Event4 : RawEvent :=
  { event := some c4Inner4, event_definition_title := none,
    event_definition_description := none }

/-- Witness for C4 (amended) at priority 4: the mapping fails with the
out-of-range `IndexError`. -/
theorem claim_C4_witness :
    map_event_to_alert c4Event4 = Except.error PyErr.indexError :=
  (claim_C4_severity_mapping c4Event4 c4Inner4 4 rfl rfl rfl rfl).2.2.2.2.2.2.2
    (Or.inl (by decide))

/-- Length of a fold that appends one block per page: the initial block's
length plus the lengths of all appended blocks. -/
theorem foldl_append_length {α : Type} (f : Nat → List α) :
    ∀ (l : List Nat) (init : List α),
      (l.foldl (fun acc p => acc ++ f p) init).length =
        init.length + (l.map (fun p => (f p).length)).sum := by
  intro l
  induction l with
  | nil => intro init; simp
  | cons x xs ih =>
      intro init
      simp only [List.foldl_cons, List.map_cons, List.sum_cons, ih,
        List.length_append]
      omega

/-- A successful mapping pass preserves the number of events. -/
theorem mapAllEvents_length :
    ∀ (es : List RawEvent) (l : List AlertDto),
      mapAllEvents es = Except.ok l → l.length = es.length := by
  intro es
  induction es with
  | nil =>
      intro l h
      simp only [mapAllEvents, Except.ok.injEq] at h
      subst h
      rfl
  | cons e rest ih =>
      intro l h
      unfold mapAllEvents at h
      cases h1 : map_event_to_alert e with
      | error err => rw [h1] at h; simp at h
      | ok a =>
          rw [h1] at h
          simp only [pyOk_bind] at h
          cases h2 : mapAllEvents rest with
          | error err => rw [h2] at h; simp at h
          | ok l2 =>
              rw [h2] at h
              simp only [pyOk_bind, Except.ok.injEq] at h
              subst h
              simp [ih l2 h2]

/-- Claim C6: `_get_alerts` always issues `max(10, ceil(total/1000))` page
requests (the computed page count with a floor of 10); with a reported
total of 2500 that is exactly 10 requests; the accumulated raw events are
the concatenation of all fetched pages, and a successful run returns one
alert per accumulated event. -/
theorem claim_C6_alert_pagination (r : AlertsRemote) :
    ((get_alerts_pages_fetched r).length = max 10 ((r.totalEvents + 999) / 1000)) ∧
    (r.totalEvents = 2500 → (get_alerts_pages_fetched r).length = 10) ∧
    ((get_alerts_raw r).length =
      ((get_alerts_pages_fetched r).map (fun p => (r.pages p).length)).sum) ∧
    (∀ l, get_alerts r = Except.ok l → l.length = (get_alerts_raw r).length) := by
  have hten : 10 ≤ get_alerts_page_count r := Nat.le_max_left _ _
  have hlen : (get_alerts_pages_fetched r).length = get_alerts_page_count r := by
    simp only [get_alerts_pages_fetched, List.length_cons, List.length_range']
    omega
  refine ⟨hlen, ?_, ?_, ?_⟩
  · intro h2500
    rw [hlen]
    simp only [get_alerts_page_count, h2500]
    decide
  · simp only [get_alerts_raw, get_alerts_pages_fetched, List.map_cons,
      List.sum_cons, foldl_append_length]
  · intro l h
    exact mapAllEvents_length _ _ h

/-- Concrete remote for the C6 witness: reported total 2500, empty pages. -/
def c6Remote : AlertsRemote := { totalEvents := 2500, pages := fun _ => [] }

/-- Witness for C6: with `total_events = 2500` exactly 10 page requests
are issued. -/
theorem claim_C6_witness : (get_alerts_pages_fetched c6Remote).length = 10 :=
  (claim_C6_alert_pagination c6Remote).2.1 rfl

/-- Concrete remote for the C3 evaluation: 150 event definitions. -/
def c3Remote : Remote :=
  { eventDefs := List.replicate 150 { id := "", scope := "", notifications := [] },
    whitelist := [], notifications := [], nextId := 0 }

set_option maxRecDepth 4000 in
/-- Claim C3 evaluation at the failing input: with 150 definitions the
reported total yields `ceil(150/100) = 2` pages, yet the enumeration
(`range(2, total_pages)`) collects only the 100 definitions of page 1,
skipping the final page — the collected list does not contain every
definition. -/
theorem claim_C3_code_bug_eval :
    c3Remote.eventDefs.length = 150 ∧
    (c3Remote.eventDefs.length + 99) / 100 = 2 ∧
    (collect_event_definitions c3Remote).length = 100 := by decide

/-- When the scan finds no occurrence, no suffix of the string starts
with the (non-empty) separator. -/
theorem firstOccAux_none_no_occ (sep : List Char) (hne : sep ≠ []) :
    ∀ s, firstOccAux sep s = none → ∀ i, ¬ sep <+: s.drop i := by
  intro s
  induction s with
  | nil =>
      intro _ i hp
      rw [List.drop_nil] at hp
      exact hne (List.prefix_nil.mp hp)
  | cons x rest ih =>
      intro h i hp
      unfold firstOccAux at h
      by_cases hpre : sep.isPrefixOf (x :: rest)
      · rw [if_pos hpre] at h; exact Option.noConfusion h
      · rw [if_neg hpre] at h
        cases i with
        | zero =>
            rw [List.drop_zero] at hp
            exact hpre (List.isPrefixOf_iff_prefix.mpr hp)
        | succ j =>
            have hrest : firstOccAux sep rest = none := by
              cases hr : firstOccAux sep rest with
              | none => rfl
              | some k => rw [hr] at h; simp at h
            exact ih hrest j (by simpa using hp)

/-- The scan's result is an occurrence, and the leftmost one. -/
theorem firstOccAux_some_occ (sep : List Char) :
    ∀ s i, firstOccAux sep s = some i →
      sep <+: s.drop i ∧ ∀ j, j < i → ¬ sep <+: s.drop j := by
  intro s
  induction s with
  | nil => intro i h; exact Option.noConfusion h
  | cons x rest ih =>
      intro i h
      unfold firstOccAux at h
      by_cases hpre : sep.isPrefixOf (x :: rest)
      · rw [if_pos hpre] at h
        obtain rfl := Option.some_inj.mp h
        exact ⟨by simpa using List.isPrefixOf_iff_prefix.mp hpre,
          fun j hj => absurd hj (Nat.not_lt_zero j)⟩
      · rw [if_neg hpre] at h
        cases hr : firstOccAux sep rest with
        | none => rw [hr] at h; simp at h
        | some k =>
            rw [hr] at h
            simp only [Option.map_some', Option.some_inj] at h
            subst h
            obtain ⟨hocc, hmin⟩ := ih k hr
            refine ⟨by simpa using hocc, ?_⟩
            intro j hj hp
            cases j with
            | zero =>
                rw [List.drop_zero] at hp
                exact hpre (List.isPrefixOf_iff_prefix.mpr hp)
            | succ j2 =>
                exact hmin j2 (by omega) (by simpa using hp)

/-- Two overlapping occurrences of a separator force a border: a strict
tail of the separator that equals the matching strict head. -/
theorem overlap_border (sep s : List Char) (i m : Nat)
    (hi : sep <+: s.drop i) (hm : sep <+: s.drop m)
    (hlt : i < m) (hover : m < i + sep.length) :
    sep.drop (m - i) = sep.take (sep.length - (m - i)) := by
  obtain ⟨u, hu⟩ := hi
  obtain ⟨v, hv⟩ := hm
  have hk : s.drop m = (s.drop i).drop (m - i) := by
    rw [List.drop_drop]
    congr 1
    omega
  have h2 : sep ++ v = (sep ++ u).drop (m - i) := by
    rw [hv, hk, ← hu]
  have h3 : (sep ++ u).drop (m - i) = sep.drop (m - i) ++ u := by
    rw [List.drop_append_eq_append_drop]
    have hz : m - i - sep.length = 0 := by omega
    rw [hz, List.drop_zero]
  have h4 : sep ++ v = sep.drop (m - i) ++ u := by rw [h2, h3]
  have h5 : (sep ++ v).take (sep.length - (m - i)) =
      sep.take (sep.length - (m - i)) := by
    rw [List.take_append_eq_append_take]
    have hz : sep.length - (m - i) - sep.length = 0 := by omega
    rw [hz, List.take_zero, List.append_nil]
  have h6 : (sep.drop (m - i) ++ u).take (sep.length - (m - i)) =
      sep.drop (m - i) := by
    rw [List.take_append_eq_append_take]
    have hlen : (sep.drop (m - i)).length = sep.length - (m - i) := by simp
    have hz : sep.length - (m - i) - (sep.drop (m - i)).length = 0 := by
      rw [hlen]
      omega
    rw [hz, List.take_zero, List.append_nil]
    exact List.take_of_length_le (le_of_eq hlen)
  calc sep.drop (m - i) = (sep.drop (m - i) ++ u).take (sep.length - (m - i)) := h6.symm
    _ = (sep ++ v).take (sep.length - (m - i)) := by rw [h4]
    _ = sep.take (sep.length - (m - i)) := h5

/-- With no occurrence the split is the whole string, whatever the fuel. -/
theorem pySplitGo_no_occ (c : Char) (cs : List Char) (fuel : Nat)
    (s : List Char) (h : firstOccAux (c :: cs) s = none) :
    pySplitGo c cs fuel s = [s] := by
  cases fuel with
  | zero => rfl
  | succ n => unfold pySplitGo; rw [h]

/-- The split result is never the empty list. -/
theorem pySplitGo_ne_nil (c : Char) (cs : List Char) (fuel : Nat)
    (s : List Char) : pySplitGo c cs fuel s ≠ [] := by
  cases fuel with
  | zero => simp [pySplitGo]
  | succ n =>
      unfold pySplitGo
      cases firstOccAux (c :: cs) s <;> simp

/-- The default value of `getLastD` is irrelevant past a cons whose tail
is non-empty. -/
theorem getLastD_cons_of_ne_nil {α : Type} (x : α) (l : List α) (d : α)
    (h : l ≠ []) : (x :: l).getLastD d = l.getLastD d := by
  cases l with
  | nil => exact absurd rfl h
  | cons y ys => simp [List.getLastD_cons]

/-- A separator is border-free when no strict tail of it equals the
matching strict head; such a separator has no overlapping occurrences. -/
def borderFree (sep : List Char) : Prop :=
  ∀ k, k < sep.length → 0 < k → sep.drop k ≠ sep.take (sep.length - k)

/-- Adequately fueled, the scan's last piece is the suffix after the
final occurrence of a border-free separator. -/
theorem pySplitGo_last (c : Char) (cs : List Char)
    (hbf : borderFree (c :: cs)) :
    ∀ (fuel : Nat) (s a b : List Char), s.length ≤ fuel →
      s = a ++ (c :: cs) ++ b → firstOccAux (c :: cs) b = none →
      (pySplitGo c cs fuel s).getLastD [] = b := by
  intro fuel
  induction fuel with
  | zero =>
      intro s a b hfuel hs hb
      exfalso
      have : s.length = a.length + (cs.length + 1) + b.length := by
        rw [hs]
        simp only [List.length_append, List.length_cons]
      omega
  | succ n ih =>
      intro s a b hfuel hs hb
      have hocc_m : (c :: cs) <+: s.drop a.length := by
        rw [hs, List.append_assoc, List.drop_left]
        exact List.prefix_append _ _
      cases hf : firstOccAux (c :: cs) s with
      | none =>
          exact absurd hocc_m
            (firstOccAux_none_no_occ (c :: cs) (by simp) s hf a.length)
      | some i =>
          obtain ⟨hocc_i, hmin⟩ := firstOccAux_some_occ (c :: cs) s i hf
          have hi_le : i ≤ a.length := by
            by_contra hgt
            exact hmin a.length (by omega) hocc_m
          unfold pySplitGo
          rw [hf]
          show (s.take i :: pySplitGo c cs n (s.drop (i + (cs.length + 1)))).getLastD [] = b
          rcases Nat.lt_or_ge i a.length with hilt | hige
          · rcases Nat.lt_or_ge a.length (i + (cs.length + 1)) with hover | hfar
            · exfalso
              have hb2 := overlap_border (c :: cs) s i a.length hocc_i hocc_m
                hilt (by simpa using hover)
              exact hbf (a.length - i) (by simp; omega) (by omega) hb2
            · have hslen : 0 < s.length := by
                rw [hs]; simp [List.length_append]
              have hrest : s.drop (i + (cs.length + 1)) =
                  (a.drop (i + (cs.length + 1)) ++ (c :: cs)) ++ b := by
                rw [hs, List.append_assoc, List.drop_append_eq_append_drop]
                have hz : i + (cs.length + 1) - a.length = 0 := by omega
                rw [hz, List.drop_zero, List.append_assoc]
              have hfuel2 : (s.drop (i + (cs.length + 1))).length ≤ n := by
                simp only [List.length_drop]
                omega
              have hlast := ih (s.drop (i + (cs.length + 1)))
                (a.drop (i + (cs.length + 1))) b hfuel2 hrest hb
              rw [getLastD_cons_of_ne_nil _ _ _ (pySplitGo_ne_nil c cs n _)]
              exact hlast
          · have hrest : s.drop (i + (cs.length + 1)) = b := by
              rw [hs]
              have hl : (a ++ (c :: cs)).length = i + (cs.length + 1) := by
                simp only [List.length_append, List.length_cons]
                omega
              rw [← hl, List.drop_left]
            rw [hrest, pySplitGo_no_occ c cs n b hb]
            simp [List.getLastD_cons]

/-- For a non-empty border-free separator, the last piece of the Python
split is the suffix after the final occurrence. -/
theorem pySplit_getLastD_after_final (sep : List Char) (hne : sep ≠ [])
    (hbf : borderFree sep)
    (s a b : List Char) (hs : s = a ++ sep ++ b)
    (hb : firstOccAux sep b = none) :
    (pySplit sep s).getLastD [] = b := by
  cases sep with
  | nil => exact absurd rfl hne
  | cons c cs =>
      exact pySplitGo_last c cs hbf s.length s a b (le_refl _) hs hb

/-- With no occurrence of the separator anywhere, the split's last piece
is the whole string. -/
theorem pySplit_getLastD_no_occ (sep s : List Char)
    (h : firstOccAux sep s = none) :
    (pySplit sep s).getLastD [] = s := by
  cases sep with
  | nil => rfl
  | cons c cs => rw [pySplit, pySplitNE, pySplitGo_no_occ c cs s.length s h]; rfl

/-- Claim C10: `setup_webhook` derives the notification title as
`"Keep-"` followed by the part of the callback URL's query string after
the last occurrence of `"provider_id="`; text of further query parameters
after it is kept, and with no `"provider_id="` at all the whole query
string is used. -/
theorem claim_C10_title_derivation (url : String) :
    (containsSub providerIdKey (urlParseQuery url).data = false →
      derive_notification_name url = "Keep-" ++ urlParseQuery url) ∧
    (∀ a b : List Char,
      (urlParseQuery url).data = a ++ providerIdKey ++ b →
      containsSub providerIdKey b = false →
      derive_notification_name url = "Keep-" ++ String.mk b) := by
  constructor
  · intro h
    have hnone : firstOccAux providerIdKey (urlParseQuery url).data = none := by
      unfold containsSub at h
      exact Option.not_isSome_iff_eq_none.mp (by simp [h])
    unfold derive_notification_name
    rw [pySplit_getLastD_no_occ _ _ hnone]
  · intro a b hq hb
    have hbf : borderFree providerIdKey := by
      unfold borderFree providerIdKey
      decide
    have hbnone : firstOccAux providerIdKey b = none := by
      unfold containsSub at hb
      exact Option.not_isSome_iff_eq_none.mp (by simp [hb])
    unfold derive_notification_name
    rw [pySplit_getLastD_after_final providerIdKey (by decide) hbf _ a b hq hbnone]

/-- Witness for C10: with a trailing `&x=1` parameter after
`provider_id=abc`, the derived title keeps the trailing text. -/
theorem claim_C10_witness :
    derive_notification_name "http://keep/webhook?provider_id=abc&x=1" =
      "Keep-abc&x=1" := by
  have h := (claim_C10_title_derivation "http://keep/webhook?provider_id=abc&x=1").2
    [] ("abc&x=1".data) (by decide) (by decide)
  rw [h]
  decide

/-- Well-formed remote state: every notification id already present (in
the notification store or referenced from event definitions) is below the
server's fresh-id counter, and ids are unique. -/
def wfRemote (r : Remote) : Prop :=
  (∀ n ∈ r.notifications, n.id < r.nextId) ∧
  (∀ d ∈ r.eventDefs, ∀ i ∈ d.notifications, i < r.nextId) ∧
  (r.notifications.map (fun n => n.id)).Nodup ∧
  (r.eventDefs.map (fun d => d.id)).Nodup

instance wfRemoteDecidable (r : Remote) : Decidable (wfRemote r) := by
  unfold wfRemote
  infer_instance

/-- With at most 100 event definitions everything fits on page 1 and the
enumeration collects exactly the full definition list. -/
theorem collect_small (r : Remote) (h : r.eventDefs.length ≤ 100) :
    collect_event_definitions r = r.eventDefs := by
  unfold collect_event_definitions
  have h0 : (r.eventDefs.length + 99) / 100 - 2 = 0 := by omega
  show (List.range' 2 ((r.eventDefs.length + 99) / 100 - 2)).foldl
      (fun acc page => acc ++ eventsPage r.eventDefs page 100)
      (eventsPage r.eventDefs 1 100) = r.eventDefs
  rw [h0]
  show eventsPage r.eventDefs 1 100 = r.eventDefs
  unfold eventsPage
  simp only [Nat.sub_self, Nat.zero_mul, List.drop_zero]
  exact List.take_of_length_le h

/-- Popping the stale reference keeps a sublist of the original
reference list. -/
theorem popFirstRef_sublist (l : List Nat) (stale : Option Nat) :
    (popFirstRef l stale).Sublist l := by
  cases stale with
  | none => exact List.Sublist.refl l
  | some s => exact List.erase_sublist s l

/-- The per-definition effect of the rebinding loop. -/
def defStep (is_v4 : Bool) (existing : Option Nat) (newId : Nat)
    (d : EventDef) : EventDef :=
  if !is_v4 && d.scope == "SYSTEM_NOTIFICATION_EVENT" then d
  else { d with notifications := popFirstRef d.notifications existing ++ [newId] }

/-- The rebinding step never changes a definition's id. -/
theorem defStep_id (is_v4 : Bool) (existing : Option Nat) (newId : Nat)
    (d : EventDef) : (defStep is_v4 existing newId d).id = d.id := by
  unfold defStep
  split <;> rfl

/-- The rebinding step never changes a definition's scope. -/
theorem defStep_scope (is_v4 : Bool) (existing : Option Nat) (newId : Nat)
    (d : EventDef) : (defStep is_v4 existing newId d).scope = d.scope := by
  unfold defStep
  split <;> rfl

/-- The rebinding loop touches only the event definitions: notifications,
whitelist and the id counter pass through unchanged. -/
theorem fold_rebind_preserves (is_v4 : Bool) (existing : Option Nat)
    (newId : Nat) :
    ∀ (todo : List EventDef) (acc : Remote),
      (todo.foldl (rebindStep is_v4 existing newId) acc).notifications =
          acc.notifications ∧
      (todo.foldl (rebindStep is_v4 existing newId) acc).nextId = acc.nextId ∧
      (todo.foldl (rebindStep is_v4 existing newId) acc).whitelist =
          acc.whitelist := by
  intro todo
  induction todo with
  | nil => intro acc; exact ⟨rfl, rfl, rfl⟩
  | cons d rest ih =>
      intro acc
      have hstep : (rebindStep is_v4 existing newId acc d).notifications =
            acc.notifications ∧
          (rebindStep is_v4 existing newId acc d).nextId = acc.nextId ∧
          (rebindStep is_v4 existing newId acc d).whitelist = acc.whitelist := by
        unfold rebindStep
        split <;> exact ⟨rfl, rfl, rfl⟩
      obtain ⟨h1, h2, h3⟩ := ih (rebindStep is_v4 existing newId acc d)
      refine ⟨?_, ?_, ?_⟩
      · rw [List.foldl_cons, h1, hstep.1]
      · rw [List.foldl_cons, h2, hstep.2.1]
      · rw [List.foldl_cons, h3, hstep.2.2]

/-- Running the rebinding loop over definitions with pairwise-distinct ids
applies the per-definition step to each: the state's definition list ends
as the pointwise-stepped original list. `done` is the already-processed
prefix. -/
theorem fold_eventDefs (is_v4 : Bool) (existing : Option Nat) (newId : Nat) :
    ∀ (todo done : List EventDef) (acc : Remote),
      acc.eventDefs = done.map (defStep is_v4 existing newId) ++ todo →
      ((done ++ todo).map (fun d => d.id)).Nodup →
      (todo.foldl (rebindStep is_v4 existing newId) acc).eventDefs =
        (done ++ todo).map (defStep is_v4 existing newId) := by
  intro todo
  induction todo with
  | nil =>
      intro done acc hacc hnodup
      simpa using hacc
  | cons d rest ih =>
      intro done acc hacc hnodup
      rw [List.foldl_cons]
      have hnodup2 := hnodup
      rw [List.map_append, List.map_cons, List.nodup_append] at hnodup2
      obtain ⟨hnd_done, hnd_cons, hdisj⟩ := hnodup2
      have hd_notin_rest : d.id ∉ rest.map (fun x => x.id) :=
        (List.nodup_cons.mp hnd_cons).1
      have hid_done : ∀ x ∈ done, x.id ≠ d.id := by
        intro x hx heq
        exact hdisj (List.mem_map_of_mem _ hx) (by rw [heq]; exact List.mem_cons_self _ _)
      have hid_rest : ∀ x ∈ rest, x.id ≠ d.id := by
        intro x hx heq
        exact hd_notin_rest (heq ▸ List.mem_map_of_mem _ hx)
      have hassoc : done ++ d :: rest = (done ++ [d]) ++ rest := by
        rw [List.append_assoc]; rfl
      have hnodup3 : (((done ++ [d]) ++ rest).map (fun x => x.id)).Nodup := by
        rw [← hassoc]; exact hnodup
      by_cases hskip : (!is_v4 && d.scope == "SYSTEM_NOTIFICATION_EVENT") = true
      · have hstep_d : defStep is_v4 existing newId d = d := by
          unfold defStep; rw [if_pos hskip]
        have hacc2 : acc.eventDefs =
            (done ++ [d]).map (defStep is_v4 existing newId) ++ rest := by
          rw [List.map_append, hacc]
          simp [hstep_d]
        have hfold : rebindStep is_v4 existing newId acc d = acc := by
          unfold rebindStep; rw [if_pos hskip]
        rw [hfold, hassoc]
        exact ih (done ++ [d]) acc hacc2 hnodup3
      · have hstep_d : defStep is_v4 existing newId d =
            { d with notifications := popFirstRef d.notifications existing ++ [newId] } := by
          unfold defStep; rw [if_neg hskip]
        have hfold : (rebindStep is_v4 existing newId acc d).eventDefs =
            (done ++ [d]).map (defStep is_v4 existing newId) ++ rest := by
          unfold rebindStep
          rw [if_neg hskip]
          show acc.eventDefs.map (fun x =>
              if x.id == ({ d with notifications := popFirstRef d.notifications existing ++ [newId] } : EventDef).id
              then { d with notifications := popFirstRef d.notifications existing ++ [newId] } else x) = _
          rw [hacc, List.map_append, List.map_cons]
          have hmap_done : (done.map (defStep is_v4 existing newId)).map (fun x =>
              if x.id == ({ d with notifications := popFirstRef d.notifications existing ++ [newId] } : EventDef).id
              then { d with notifications := popFirstRef d.notifications existing ++ [newId] } else x) =
              done.map (defStep is_v4 existing newId) := by
            rw [List.map_congr_left]
            · exact (done.map (defStep is_v4 existing newId)).map_id
            · intro x hx
              obtain ⟨y, hy, rfl⟩ := List.mem_map.mp hx
              have : (defStep is_v4 existing newId y).id ≠ d.id := by
                rw [defStep_id]; exact hid_done y hy
              simp [this]
          have hmap_rest : rest.map (fun x =>
              if x.id == ({ d with notifications := popFirstRef d.notifications existing ++ [newId] } : EventDef).id
              then { d with notifications := popFirstRef d.notifications existing ++ [newId] } else x) = rest := by
            rw [List.map_congr_left]
            · exact rest.map_id
            · intro x hx
              simp [hid_rest x hx]
          have hhead : (if d.id == ({ d with notifications := popFirstRef d.notifications existing ++ [newId] } : EventDef).id
              then { d with notifications := popFirstRef d.notifications existing ++ [newId] } else d) =
              { d with notifications := popFirstRef d.notifications existing ++ [newId] } := by
            simp
          rw [hmap_done, hmap_rest, hhead, List.map_append]
          simp [hstep_d]
        rw [hassoc]
        exact ih (done ++ [d]) _ hfold hnodup3

/-- A definition that the scope condition admits is never skipped by the
rebinding loop. -/
theorem noskip_of_scope (is_v4 : Bool) (d : EventDef)
    (h : is_v4 = true ∨ d.scope ≠ "SYSTEM_NOTIFICATION_EVENT") :
    (!is_v4 && d.scope == "SYSTEM_NOTIFICATION_EVENT") = false := by
  rcases h with h | h
  · rw [h]; rfl
  · simp [h]

/-- State of the remote system after the create phase of a run, and what
the rebinding loop then makes of it: exactly one notification carries the
derived title (the freshly created one, with id `N`), and every event
definition ends with exactly one reference to `N`. -/
theorem post_create_spec (is_v4 : Bool) (existing : Option Nat)
    (name descr : String) (defs : List EventDef) (base : List Notification)
    (w : List WhitelistEntry) (N : Nat) (cfg : NotificationConfig)
    (hdef_ids : (defs.map (fun d => d.id)).Nodup)
    (hdef_refs : ∀ d ∈ defs, ∀ i ∈ d.notifications, i < N)
    (hscope : ∀ d ∈ defs, is_v4 = true ∨ d.scope ≠ "SYSTEM_NOTIFICATION_EVENT")
    (hbase_titled : base.filter (fun n => n.title == name) = [])
    (hbase_ids : ∀ n ∈ base, n.id < N)
    (hbase_nodup : (base.map (fun n => n.id)).Nodup)
    (st fin : Remote)
    (hst : st = { eventDefs := defs, whitelist := w,
                  notifications := base ++
                    [{ id := N, title := name, description := descr, config := cfg }],
                  nextId := N + 1 })
    (hfin : fin = defs.foldl (rebindStep is_v4 existing N) st) :
    wfRemote fin ∧
    fin.nextId = N + 1 ∧
    fin.eventDefs.length = defs.length ∧
    (∀ d ∈ fin.eventDefs, is_v4 = true ∨ d.scope ≠ "SYSTEM_NOTIFICATION_EVENT") ∧
    (fin.notifications.filter (fun n => n.title == name)).length = 1 ∧
    (∀ n ∈ fin.notifications, n.title = name → n.id = N) ∧
    (∀ d ∈ fin.eventDefs, d.notifications.count N = 1) := by
  subst hfin
  obtain ⟨hpn, hpnext, hpw⟩ := fold_rebind_preserves is_v4 existing N defs st
  have hstdefs : st.eventDefs = defs := by rw [hst]
  have hstnot : st.notifications = base ++
      [{ id := N, title := name, description := descr, config := cfg }] := by rw [hst]
  have hstnext : st.nextId = N + 1 := by rw [hst]
  have hdefs : (defs.foldl (rebindStep is_v4 existing N) st).eventDefs =
      defs.map (defStep is_v4 existing N) := by
    have h := fold_eventDefs is_v4 existing N defs [] st
      (by rw [hstdefs]; rfl) (by simpa using hdef_ids)
    simpa using h
  have hnot : (defs.foldl (rebindStep is_v4 existing N) st).notifications =
      base ++ [{ id := N, title := name, description := descr, config := cfg }] := by
    rw [hpn, hstnot]
  have hnext : (defs.foldl (rebindStep is_v4 existing N) st).nextId = N + 1 := by
    rw [hpnext, hstnext]
  have hcount : ∀ d ∈ defs.map (defStep is_v4 existing N),
      d.notifications.count N = 1 := by
    intro d hd
    obtain ⟨y, hy, rfl⟩ := List.mem_map.mp hd
    have hns := noskip_of_scope is_v4 y (hscope y hy)
    unfold defStep
    rw [hns]
    simp only [Bool.false_eq_true, if_false, List.count_append]
    have hzero : y.notifications.count N = 0 :=
      List.count_eq_zero.mpr (fun hmem => Nat.lt_irrefl N (hdef_refs y hy N hmem))
    have hple : (popFirstRef y.notifications existing).count N ≤
        y.notifications.count N :=
      (popFirstRef_sublist y.notifications existing).count_le N
    simp only [hzero] at hple
    simp [Nat.le_zero.mp hple]
  refine ⟨?_, hnext, ?_, ?_, ?_, ?_, ?_⟩
  · refine ⟨?_, ?_, ?_, ?_⟩
    · intro n hn
      rw [hnot] at hn
      rw [hnext]
      rcases List.mem_append.mp hn with hb | hone
      · exact Nat.lt_succ_of_lt (hbase_ids n hb)
      · rw [List.mem_singleton.mp hone]
        exact Nat.lt_succ_self N
    · intro d hd i hi
      rw [hdefs] at hd
      rw [hnext]
      obtain ⟨y, hy, rfl⟩ := List.mem_map.mp hd
      have hns := noskip_of_scope is_v4 y (hscope y hy)
      unfold defStep at hi
      rw [hns] at hi
      simp only [Bool.false_eq_true, if_false] at hi
      rcases List.mem_append.mp hi with hpop | hnew
      · exact Nat.lt_succ_of_lt
          (hdef_refs y hy i ((popFirstRef_sublist y.notifications existing).mem hpop))
      · rw [List.mem_singleton.mp hnew]
        exact Nat.lt_succ_self N
    · rw [hnot, List.map_append, List.nodup_append]
      refine ⟨hbase_nodup, by simp, ?_⟩
      intro a ha hb
      obtain ⟨n, hn, rfl⟩ := List.mem_map.mp ha
      simp only [List.map_cons, List.map_nil, List.mem_singleton] at hb
      exact Nat.lt_irrefl N (hb ▸ hbase_ids n hn)
    · rw [hdefs, List.map_map]
      have : defs.map ((fun d => d.id) ∘ defStep is_v4 existing N) =
          defs.map (fun d => d.id) :=
        List.map_congr_left (fun d _ => defStep_id is_v4 existing N d)
      rw [this]
      exact hdef_ids
  · rw [hdefs, List.length_map]
  · intro d hd
    rw [hdefs] at hd
    obtain ⟨y, hy, rfl⟩ := List.mem_map.mp hd
    rw [defStep_scope]
    exact hscope y hy
  · rw [hnot, List.filter_append, hbase_titled]
    simp
  · intro n hn htit
    rw [hnot] at hn
    rcases List.mem_append.mp hn with hb | hone
    · exfalso
      have := List.filter_eq_nil_iff.mp hbase_titled n hb
      rw [htit] at this
      simp at this
    · rw [List.mem_singleton.mp hone]
  · intro d hd
    rw [hdefs] at hd
    exact hcount d hd


/-- One complete `setup_webhook` run from a well-formed state with at most
100 definitions, at most one notification carrying the derived title, and
no skipped definitions: afterwards exactly one notification carries the
title (the fresh one, id = the old counter) and every definition
references it exactly once; all the preconditions re-establish
themselves. -/
theorem setup_webhook_run (is_v4 : Bool) (url key : String) (r : Remote)
    (hwf : wfRemote r) (hlen : r.eventDefs.length ≤ 100)
    (htitle : (r.notifications.filter
        (fun n => n.title == derive_notification_name url)).length ≤ 1)
    (hscope : ∀ d ∈ r.eventDefs,
        is_v4 = true ∨ d.scope ≠ "SYSTEM_NOTIFICATION_EVENT") :
    wfRemote (setup_webhook is_v4 url key r) ∧
    (setup_webhook is_v4 url key r).nextId = r.nextId + 1 ∧
    (setup_webhook is_v4 url key r).eventDefs.length = r.eventDefs.length ∧
    (∀ d ∈ (setup_webhook is_v4 url key r).eventDefs,
        is_v4 = true ∨ d.scope ≠ "SYSTEM_NOTIFICATION_EVENT") ∧
    ((setup_webhook is_v4 url key r).notifications.filter
        (fun n => n.title == derive_notification_name url)).length = 1 ∧
    (∀ n ∈ (setup_webhook is_v4 url key r).notifications,
        n.title = derive_notification_name url → n.id = r.nextId) ∧
    (∀ d ∈ (setup_webhook is_v4 url key r).eventDefs,
        d.notifications.count r.nextId = 1) := by
  obtain ⟨hwf1, hwf2, hwf3, hwf4⟩ := hwf
  set name := derive_notification_name url with hname
  set cb := (if is_v4 then url ++ "&api_key=" ++ key else url) with hcb
  set cfg := (if is_v4 then NotificationConfig.httpV1 cb
    else NotificationConfig.httpV2 cb ("X-API-KEY:" ++ key) true "POST" "JSON") with hcfg
  set r1 := whitelistStep r cb name with hr1
  set er := deleteExistingStep r1 name with her
  set nr := createNotificationStep er.2 name cfg with hnr
  have hsw : setup_webhook is_v4 url key r =
      (collect_event_definitions r).foldl (rebindStep is_v4 er.1 nr.1) nr.2 := rfl
  rw [collect_small r hlen] at hsw
  cases hfil : r.notifications.filter (fun n => n.title == name) with
  | nil =>
      have her2 : er = (none, r1) := by
        rw [her]
        unfold deleteExistingStep notificationQuery
        have hfil1 : r1.notifications.filter (fun n => n.title == name) = [] := hfil
        rw [hfil1]
        rfl
      have hN : nr.1 = r.nextId := by rw [hnr, her2]; rfl
      rw [hN] at hsw
      have hst : nr.2 =
          { eventDefs := r.eventDefs, whitelist := r1.whitelist,
            notifications := r.notifications ++
              [{ id := r.nextId, title := name,
                 description := keepDescription, config := cfg }],
            nextId := r.nextId + 1 } := by
        rw [hnr, her2]
        rfl
      exact post_create_spec is_v4 er.1 name keepDescription
        r.eventDefs r.notifications r1.whitelist r.nextId cfg
        hwf4 hwf2 hscope hfil hwf1 hwf3 nr.2 (setup_webhook is_v4 url key r) hst hsw
  | cons n0 rest0 =>
      have hrest : rest0 = [] := by
        have hlf : (r.notifications.filter (fun n => n.title == name)).length =
            rest0.length + 1 := by rw [hfil]; simp
        rw [hlf] at htitle
        exact List.eq_nil_of_length_eq_zero (by omega)
      subst hrest
      have her2 : er = (some n0.id,
          { r1 with notifications := r1.notifications.filter (fun x => x.id ≠ n0.id) }) := by
        rw [her]
        unfold deleteExistingStep notificationQuery
        have hfil1 : r1.notifications.filter (fun n => n.title == name) = [n0] := hfil
        rw [hfil1]
        rfl
      have hN : nr.1 = r.nextId := by rw [hnr, her2]; rfl
      rw [hN] at hsw
      have hst : nr.2 =
          { eventDefs := r.eventDefs, whitelist := r1.whitelist,
            notifications := (r.notifications.filter (fun x => x.id ≠ n0.id)) ++
              [{ id := r.nextId, title := name,
                 description := keepDescription, config := cfg }],
            nextId := r.nextId + 1 } := by
        rw [hnr, her2]
        rfl
      have hbase_titled : (r.notifications.filter (fun x => x.id ≠ n0.id)).filter
          (fun n => n.title == name) = [] := by
        rw [List.filter_filter]
        refine List.filter_eq_nil_iff.mpr ?_
        intro x hx hcontra
        rw [Bool.and_eq_true] at hcontra
        obtain ⟨ht, hne⟩ := hcontra
        have hx0 : x ∈ r.notifications.filter (fun n => n.title == name) :=
          List.mem_filter.mpr ⟨hx, ht⟩
        rw [hfil] at hx0
        obtain rfl := List.mem_singleton.mp hx0
        exact of_decide_eq_true hne rfl
      have hbase_ids : ∀ n ∈ r.notifications.filter (fun x => x.id ≠ n0.id),
          n.id < r.nextId :=
        fun n hn => hwf1 n (List.mem_of_mem_filter hn)
      have hbase_nodup : ((r.notifications.filter (fun x => x.id ≠ n0.id)).map
          (fun n => n.id)).Nodup :=
        hwf3.sublist ((List.filter_sublist r.notifications).map _)
      exact post_create_spec is_v4 er.1 name keepDescription
        r.eventDefs (r.notifications.filter (fun x => x.id ≠ n0.id)) r1.whitelist
        r.nextId cfg hwf4 hwf2 hscope hbase_titled hbase_ids hbase_nodup
        nr.2 (setup_webhook is_v4 url key r) hst hsw

/-- Claim C1 (amended): from a well-formed remote state with at most 100
event definitions, at most one notification already carrying the derived
title, and (on non-v4 backends) no system-scoped definitions, running
`setup_webhook` twice with the same callback URL and api key leaves
exactly one notification with the derived title, and every event
definition's notification list references its id exactly once. -/
theorem claim_C1_setup_twice (is_v4 : Bool) (url key : String) (r : Remote)
    (hwf : wfRemote r) (hlen : r.eventDefs.length ≤ 100)
    (htitle : (r.notifications.filter
        (fun n => n.title == derive_notification_name url)).length ≤ 1)
    (hscope : ∀ d ∈ r.eventDefs,
        is_v4 = true ∨ d.scope ≠ "SYSTEM_NOTIFICATION_EVENT") :
    ∃ nid,
      ((setup_webhook is_v4 url key (setup_webhook is_v4 url key r)).notifications.filter
          (fun n => n.title == derive_notification_name url)).map (fun n => n.id) =
        [nid] ∧
      ∀ d ∈ (setup_webhook is_v4 url key (setup_webhook is_v4 url key r)).eventDefs,
        d.notifications.count nid = 1 := by
  obtain ⟨hwfA, h1next, h1len, h1scope, h1title, h1titleid, h1count⟩ :=
    setup_webhook_run is_v4 url key r hwf hlen htitle hscope
  obtain ⟨hwfB, h2next, h2len, h2scope, h2title, h2titleid, h2count⟩ :=
    setup_webhook_run is_v4 url key (setup_webhook is_v4 url key r) hwfA
      (by rw [h1len]; exact hlen) (le_of_eq h1title) h1scope
  refine ⟨(setup_webhook is_v4 url key r).nextId, ?_, h2count⟩
  obtain ⟨n1, hn1⟩ := List.length_eq_one.mp h2title
  rw [hn1]
  simp only [List.map_cons, List.map_nil]
  have hmem : n1 ∈ (setup_webhook is_v4 url key
      (setup_webhook is_v4 url key r)).notifications.filter
      (fun n => n.title == derive_notification_name url) := by
    rw [hn1]; exact List.mem_singleton.mpr rfl
  obtain ⟨hmem1, hmem2⟩ := List.mem_filter.mp hmem
  rw [h2titleid n1 hmem1 (eq_of_beq hmem2)]

/-- Remote state for the C1 counterexample: two pre-existing notifications
already carry the derived title `Keep-x`; this is a well-formed remote
state. -/
def c1DupRemote : Remote :=
  { eventDefs := [], whitelist := [],
    notifications :=
      [{ id := 0, title := "Keep-x", description := "",
         config := NotificationConfig.httpV1 "u" },
       { id := 1, title := "Keep-x", description := "",
         config := NotificationConfig.httpV1 "u" }],
    nextId := 2 }

/-- Counterexample to claim C1 as stated ("for every remote state"): from
a well-formed remote state that already holds two notifications titled
`Keep-x`, two runs of `setup_webhook` still leave two notifications with
the derived title, not exactly one — the lookup reads only the first
query result and deletes a single notification per run while creating a
new one. -/
theorem claim_C1_counterexample :
    wfRemote c1DupRemote ∧
    ((setup_webhook true "http://keep/?provider_id=x" "k"
        (setup_webhook true "http://keep/?provider_id=x" "k" c1DupRemote)).notifications.filter
        (fun n => n.title == derive_notification_name "http://keep/?provider_id=x")).length
      = 2 := by decide

/-- Remote state for the C1 witness: one event definition, no
notifications yet. -/
def c1WitnessRemote : Remote :=
  { eventDefs := [{ id := "d1", scope := "", notifications := [] }],
    whitelist := [], notifications := [], nextId := 0 }

/-- Witness for C1 (amended) on a concrete one-definition remote state. -/
theorem claim_C1_witness :
    ∃ nid,
      ((setup_webhook true "http://keep/?provider_id=x" "k"
          (setup_webhook true "http://keep/?provider_id=x" "k" c1WitnessRemote)).notifications.filter
          (fun n => n.title == derive_notification_name "http://keep/?provider_id=x")).map
        (fun n => n.id) = [nid] ∧
      ∀ d ∈ (setup_webhook true "http://keep/?provider_id=x" "k"
          (setup_webhook true "http://keep/?provider_id=x" "k" c1WitnessRemote)).eventDefs,
        d.notifications.count nid = 1 :=
  claim_C1_setup_twice true "http://keep/?provider_id=x" "k" c1WitnessRemote
    (by decide) (by decide) (by decide) (by decide)
